import Mathlib

/-!
# Verification of the dcache replication core

Shallow embedding of the dcache repository (a replicated in-memory
key-value cache) and proofs about its log-entry codec, replicated store,
HTTP handler, gossip registry, client-side picker and service supervisor.

Go byte slices are modelled as `List Nat` whose elements are read modulo
256 exactly where the Go code reads a byte; Go strings that only ever act
as byte carriers (cache keys) are modelled by their byte lists as well.
A Go runtime fault (out-of-range slice index) is modelled by `Option`
(`none` = panic), never silently totalised.
-/

/-! ## Codec (store/store.go: serializeEntry / deserializeEntry) -/

/-- The four little-endian bytes `binary.LittleEndian.PutUint32` writes for `n`
(Go truncates to `uint32`, hence the implicit `n % 2^32`). -/
def le32 (n : Nat) : List Nat :=
  [n % 256, n / 256 % 256, n / 65536 % 256, n / 16777216 % 256]

/-- The value `binary.LittleEndian.Uint32` reads from the first four entries of
a byte list (each entry taken mod 256, as a Go byte is). Total companion of
`uint32LE`; only meaningful when the list has at least four entries. -/
def uint32At (b : List Nat) : Nat :=
  b.getD 0 0 % 256 + 256 * (b.getD 1 0 % 256) + 65536 * (b.getD 2 0 % 256)
    + 16777216 * (b.getD 3 0 % 256)

/-- Model of `binary.LittleEndian.Uint32`: Go bounds-checks `b[3]` and panics when the
slice is shorter than 4, modelled by `none`. -/
def uint32LE (b : List Nat) : Option Nat :=
  if 4 ≤ b.length then some (uint32At b) else none

/-- Go slice expression `b[lo:hi]`: panics unless `lo ≤ hi ≤ len(b)`. -/
def goSlice (b : List Nat) (lo hi : Nat) : Option (List Nat) :=
  if lo ≤ hi ∧ hi ≤ b.length then some ((b.take hi).drop lo) else none

/-- Go slice expression `b[lo:]`: panics unless `lo ≤ len(b)`. -/
def goSliceFrom (b : List Nat) (lo : Nat) : Option (List Nat) :=
  if lo ≤ b.length then some (b.drop lo) else none

/-- Go index expression `b[i]`: panics unless `i < len(b)`. -/
def goIndex (b : List Nat) (i : Nat) : Option Nat :=
  if i < b.length then some (b.getD i 0) else none

/-- Go `uint32` addition: wraps modulo `2^32`. -/
def add32 (a b : Nat) : Nat := (a + b) % 4294967296

/-- Model of `store.SetOperation` (`iota` = 0). -/
def SetOperation : Nat := 0

/-- Model of `store.GetOperation` (`iota` = 1). -/
def GetOperation : Nat := 1

/-- Model of `store.serializeEntry`: `FLAG(1) | KEY_SIZE(4,LE) | KEY | VALUE_SIZE(4,LE)
| VALUE`.  The buffer is allocated at exactly `1+4+len(key)+4+len(val)`, the
flag byte is stored as a Go `byte` (mod 256) and the two length fields are the
`uint32` truncations of the actual lengths, so the buffer is precisely this
concatenation. -/
def serializeEntry (flag : Nat) (key val : List Nat) : List Nat :=
  (flag % 256) :: (le32 key.length ++ key ++ le32 val.length ++ val)

/-- Model of `store.deserializeEntry`, step by step:
`keySize := Uint32(buf[1:])`; `key := buf[5 : 5+keySize]`;
`return buf[0], key, buf[5+keySize+4 : Uint32(buf[5+keySize:]) + 5+keySize+4]`.
All index arithmetic is Go `uint32` arithmetic (`add32`).  `none` models the
run-time panic the Go code exhibits on any out-of-range access. -/
def deserializeEntryO (buf : List Nat) : Option (Nat × List Nat × List Nat) :=
  match goSliceFrom buf 1 with
  | none => none
  | some t1 =>
    match uint32LE t1 with
    | none => none
    | some keySize =>
      match goSlice buf 5 (add32 5 keySize) with
      | none => none
      | some key =>
        match goIndex buf 0 with
        | none => none
        | some flag =>
          match goSliceFrom buf (add32 5 keySize) with
          | none => none
          | some rest =>
            match uint32LE rest with
            | none => none
            | some valSize =>
              match goSlice buf (add32 (add32 5 keySize) 4)
                  (add32 valSize (add32 (add32 5 keySize) 4)) with
              | none => none
              | some val => some (flag, key, val)

/-- Decode outcomes in the vocabulary of the specification: a decoded triple,
a run-time fault, or the spec's `MalformedEntry` error.  The source function
`deserializeEntry` returns a bare triple and can only fault, so `malformed`
is never produced by the embedding; it exists to state the spec's claim. -/
inductive EntryResult where
  | ok (flag : Nat) (key : List Nat) (val : List Nat)
  | panic
  | malformed
  deriving DecidableEq, Repr

/-- Model of `store.deserializeEntry` with its outcomes named: a Go panic is `panic`,
a normal return is `ok`. -/
def deserializeEntry (buf : List Nat) : EntryResult :=
  match deserializeEntryO buf with
  | none => .panic
  | some (flag, key, val) => .ok flag key val

/-- The `keySize` field `deserializeEntry` reads (total version). -/
def keyLenOf (buf : List Nat) : Nat := uint32At (buf.drop 1)

/-- The `valSize` field `deserializeEntry` reads (total version). -/
def valLenOf (buf : List Nat) : Nat := uint32At (buf.drop (5 + keyLenOf buf))

/-! ### Codec lemmas -/

lemma uint32At_lt (b : List Nat) : uint32At b < 4294967296 := by
  unfold uint32At
  have h0 : b.getD 0 0 % 256 < 256 := Nat.mod_lt _ (by omega)
  have h1 : b.getD 1 0 % 256 < 256 := Nat.mod_lt _ (by omega)
  have h2 : b.getD 2 0 % 256 < 256 := Nat.mod_lt _ (by omega)
  have h3 : b.getD 3 0 % 256 < 256 := Nat.mod_lt _ (by omega)
  omega

lemma goSliceFrom_append (a b : List Nat) :
    goSliceFrom (a ++ b) a.length = some b := by
  unfold goSliceFrom
  rw [if_pos (by simp)]
  simp

lemma goSlice_append (a b c : List Nat) :
    goSlice (a ++ (b ++ c)) a.length (a.length + b.length) = some b := by
  have hc : a.length ≤ a.length + b.length ∧
      a.length + b.length ≤ (a ++ (b ++ c)).length := by
    simp only [List.length_append]
    omega
  unfold goSlice
  rw [if_pos hc]
  have h1 : (a ++ (b ++ c)).take (a.length + b.length) = a ++ b := by
    rw [List.take_append, List.take_left]
  rw [h1, List.drop_left]

lemma uint32At_le32 (n : Nat) (r : List Nat) :
    uint32At (le32 n ++ r) = n % 4294967296 := by
  unfold uint32At le32
  simp only [List.cons_append, List.getD_cons_zero, List.getD_cons_succ]
  omega

lemma uint32LE_le32 (n : Nat) (r : List Nat) :
    uint32LE (le32 n ++ r) = some (n % 4294967296) := by
  unfold uint32LE
  rw [if_pos (by simp [le32])]
  exact congrArg some (uint32At_le32 n r)

lemma le32_length (n : Nat) : (le32 n).length = 4 := by simp [le32]

/-- Round trip at the `Option` level: decoding an encoded entry whose total
size stays below `2^32` recovers the flag byte and the exact key and value. -/
theorem deserializeEntryO_serializeEntry (flag : Nat) (key val : List Nat)
    (H : 9 + key.length + val.length < 4294967296) :
    deserializeEntryO (serializeEntry flag key val) =
      some (flag % 256, key, val) := by
  set n := key.length with hn
  set m := val.length with hm
  have hbuf : serializeEntry flag key val =
      [flag % 256] ++ (le32 n ++ (key ++ (le32 m ++ val))) := by
    simp [serializeEntry, List.append_assoc]
  have hlen : (serializeEntry flag key val).length = 9 + n + m := by
    simp [serializeEntry, le32]; omega
  -- step 1: buf[1:]
  have h1 : goSliceFrom (serializeEntry flag key val) 1 =
      some (le32 n ++ (key ++ (le32 m ++ val))) := by
    rw [hbuf]
    have := goSliceFrom_append [flag % 256] (le32 n ++ (key ++ (le32 m ++ val)))
    simpa using this
  -- step 2: keySize
  have h2 : uint32LE (le32 n ++ (key ++ (le32 m ++ val))) = some n := by
    rw [uint32LE_le32, Nat.mod_eq_of_lt (by omega)]
  -- step 3: key slice
  have hadd5 : add32 5 n = 5 + n := by
    unfold add32; exact Nat.mod_eq_of_lt (by omega)
  have h3 : goSlice (serializeEntry flag key val) 5 (5 + n) = some key := by
    have hpre : ([flag % 256] ++ le32 n).length = 5 := by simp [le32]
    have := goSlice_append ([flag % 256] ++ le32 n) key (le32 m ++ val)
    rw [hpre, hn] at this
    rw [hbuf]
    simpa [List.append_assoc] using this
  -- step 4: flag byte
  have h4 : goIndex (serializeEntry flag key val) 0 = some (flag % 256) := by
    unfold goIndex
    rw [if_pos (by rw [hlen]; omega)]
    rw [hbuf]; simp
  -- step 5: buf[5+keySize:]
  have h5 : goSliceFrom (serializeEntry flag key val) (5 + n) =
      some (le32 m ++ val) := by
    have hpre : ([flag % 256] ++ (le32 n ++ key)).length = 5 + n := by
      simp [le32]; omega
    have := goSliceFrom_append ([flag % 256] ++ (le32 n ++ key)) (le32 m ++ val)
    rw [hpre] at this
    rw [hbuf]
    simpa [List.append_assoc] using this
  -- step 6: valSize
  have h6 : uint32LE (le32 m ++ val) = some m := by
    rw [uint32LE_le32, Nat.mod_eq_of_lt (by omega)]
  -- step 7: value slice
  have hadd9 : add32 (5 + n) 4 = 9 + n := by
    unfold add32; rw [Nat.mod_eq_of_lt (by omega)]; omega
  have haddv : add32 m (9 + n) = 9 + n + m := by
    unfold add32; rw [Nat.mod_eq_of_lt (by omega)]; omega
  have h7 : goSlice (serializeEntry flag key val) (9 + n) (9 + n + m) =
      some val := by
    have hpre : ([flag % 256] ++ (le32 n ++ (key ++ le32 m))).length = 9 + n := by
      simp [le32]; omega
    have := goSlice_append ([flag % 256] ++ (le32 n ++ (key ++ le32 m))) val []
    rw [hpre, hm] at this
    rw [hbuf]
    simpa [List.append_assoc] using this
  unfold deserializeEntryO
  rw [h1]; dsimp only
  rw [h2]; dsimp only
  rw [hadd5, h3]; dsimp only
  rw [h4]; dsimp only
  rw [h5]; dsimp only
  rw [h6]; dsimp only
  rw [hadd9, haddv, h7]

/-- Claim C1. For every operation tag `op ∈ {0,1}` and every key and value of
length at most `2^16`, decoding the encoding returns the original triple:
`deserializeEntry (serializeEntry op key val) = ok op key val`. -/
theorem codec_round_trip (op : Nat) (key val : List Nat)
    (hop : op = 0 ∨ op = 1)
    (hkey : key.length ≤ 65536) (hval : val.length ≤ 65536) :
    deserializeEntry (serializeEntry op key val) = .ok op key val := by
  unfold deserializeEntry
  rw [deserializeEntryO_serializeEntry op key val (by omega)]
  rcases hop with h | h <;> subst h <;> rfl

/-- Claim C1 witness. The round trip evaluated on a concrete entry. -/
theorem codec_round_trip_witness :
    deserializeEntry (serializeEntry 1 [104, 105] [1, 2, 3]) =
      .ok 1 [104, 105] [1, 2, 3] :=
  codec_round_trip 1 [104, 105] [1, 2, 3] (Or.inr rfl) (by decide) (by decide)

/-! ### C2: behaviour of the decoder on malformed buffers -/

lemma deserializeEntryO_keyLen_overflow (buf : List Nat)
    (h : buf.length < 9 + keyLenOf buf) :
    deserializeEntryO buf = none := by
  by_cases h1 : 1 ≤ buf.length
  case neg =>
    unfold deserializeEntryO goSliceFrom
    rw [if_neg h1]
  case pos =>
    have e1 : goSliceFrom buf 1 = some (buf.drop 1) := by
      unfold goSliceFrom; rw [if_pos h1]
    by_cases h4 : 4 ≤ (buf.drop 1).length
    case neg =>
      unfold deserializeEntryO
      rw [e1]; dsimp only
      unfold uint32LE; rw [if_neg h4]
    case pos =>
      have e2 : uint32LE (buf.drop 1) = some (keyLenOf buf) := by
        unfold uint32LE keyLenOf; rw [if_pos h4]
      have hk32 : keyLenOf buf < 4294967296 := uint32At_lt _
      set k := keyLenOf buf with hk
      by_cases hwrap : 5 + k < 4294967296
      case pos =>
        have hadd : add32 5 k = 5 + k := by
          unfold add32; exact Nat.mod_eq_of_lt hwrap
        by_cases hfit : 5 + k ≤ buf.length
        case neg =>
          have e3 : goSlice buf 5 (add32 5 k) = none := by
            unfold goSlice; rw [hadd]
            split_ifs with hc
            · exact absurd hc.2 hfit
            · rfl
          unfold deserializeEntryO
          rw [e1]; dsimp only
          rw [e2]; dsimp only
          rw [e3]
        case pos =>
          have e3 : goSlice buf 5 (add32 5 k) =
              some ((buf.take (5 + k)).drop 5) := by
            unfold goSlice; rw [hadd, if_pos ⟨by omega, hfit⟩]
          have e4 : goIndex buf 0 = some (buf.getD 0 0) := by
            unfold goIndex; rw [if_pos (by omega)]
          have e5 : goSliceFrom buf (add32 5 k) = some (buf.drop (5 + k)) := by
            unfold goSliceFrom; rw [hadd, if_pos hfit]
          have e6 : uint32LE (buf.drop (5 + k)) = none := by
            unfold uint32LE
            rw [if_neg]
            rw [List.length_drop]
            omega
          unfold deserializeEntryO
          rw [e1]; dsimp only
          rw [e2]; dsimp only
          rw [e3]; dsimp only
          rw [e4]; dsimp only
          rw [e5]; dsimp only
          rw [e6]
      case neg =>
        have e3 : goSlice buf 5 (add32 5 k) = none := by
          unfold goSlice add32
          split_ifs with hc
          · exfalso
            obtain ⟨hc1, _⟩ := hc
            omega
          · rfl
        unfold deserializeEntryO
        rw [e1]; dsimp only
        rw [e2]; dsimp only
        rw [e3]

lemma deserializeEntryO_valLen_overflow (buf : List Nat)
    (hbig : buf.length < 4294967296)
    (hfit : 9 + keyLenOf buf ≤ buf.length)
    (h : buf.length < 9 + keyLenOf buf + valLenOf buf) :
    deserializeEntryO buf = none := by
  have hk32 : keyLenOf buf < 4294967296 := uint32At_lt _
  have hv32 : valLenOf buf < 4294967296 := uint32At_lt _
  set k := keyLenOf buf with hk
  set v := valLenOf buf with hv
  have h1 : 1 ≤ buf.length := by omega
  have e1 : goSliceFrom buf 1 = some (buf.drop 1) := by
    unfold goSliceFrom; rw [if_pos h1]
  have e2 : uint32LE (buf.drop 1) = some k := by
    unfold uint32LE
    rw [if_pos (by rw [List.length_drop]; omega)]
    rw [hk]; rfl
  have hadd : add32 5 k = 5 + k := by
    unfold add32; exact Nat.mod_eq_of_lt (by omega)
  have e3 : goSlice buf 5 (add32 5 k) = some ((buf.take (5 + k)).drop 5) := by
    unfold goSlice; rw [hadd, if_pos ⟨by omega, by omega⟩]
  have e4 : goIndex buf 0 = some (buf.getD 0 0) := by
    unfold goIndex; rw [if_pos (by omega)]
  have e5 : goSliceFrom buf (add32 5 k) = some (buf.drop (5 + k)) := by
    unfold goSliceFrom; rw [hadd, if_pos (by omega)]
  have e6 : uint32LE (buf.drop (5 + k)) = some v := by
    unfold uint32LE
    rw [if_pos (by rw [List.length_drop]; omega)]
    rw [hv]
    unfold valLenOf
    rw [← hk]
  have e7 : goSlice buf (add32 (5 + k) 4) (add32 v (add32 (5 + k) 4)) = none := by
    have hadd9 : add32 (5 + k) 4 = 9 + k := by
      unfold add32; rw [Nat.mod_eq_of_lt (by omega)]; omega
    rw [hadd9]
    unfold goSlice add32
    split_ifs with hc
    · exfalso
      obtain ⟨hc1, hc2⟩ := hc
      omega
    · rfl
  unfold deserializeEntryO
  rw [e1]; dsimp only
  rw [e2]; dsimp only
  rw [e3]; dsimp only
  rw [e4]; dsimp only
  rw [e5]; dsimp only
  rw [e6]; dsimp only
  rw [hadd, e7]

/-- Claim C2 counterexample. On the empty buffer — shorter than 9 bytes — the
decoder faults (out-of-range slice access) instead of returning a
MalformedEntry error, refuting the claim that malformed buffers produce a
`MalformedEntry` error rather than a fault. -/
theorem decode_malformed_counterexample :
    List.length ([] : List Nat) < 9 ∧ deserializeEntry [] = .panic ∧
      deserializeEntry [] ≠ .malformed := by decide

/-- Claim C2, amended. `deserializeEntry` has no `MalformedEntry` error path at
all: it never returns such an error; whenever the buffer is shorter than 9
bytes, or the encoded `keyLen` or `valLen` exceeds the remaining buffer
(buffers below `2^32` bytes for the `valLen` case), it faults with an
out-of-range panic; and the op byte is not validated — a buffer whose op byte
is not a defined tag (e.g. 7) still decodes to a triple. -/
theorem decode_malformed_amended :
    (∀ buf, deserializeEntry buf ≠ .malformed) ∧
    (∀ buf, buf.length < 9 → deserializeEntry buf = .panic) ∧
    (∀ buf, buf.length < 9 + keyLenOf buf → deserializeEntry buf = .panic) ∧
    (∀ buf, buf.length < 4294967296 → 9 + keyLenOf buf ≤ buf.length →
      buf.length < 9 + keyLenOf buf + valLenOf buf →
      deserializeEntry buf = .panic) ∧
    deserializeEntry (serializeEntry 7 [1] [2]) = .ok 7 [1] [2] := by
  refine ⟨?_, ?_, ?_, ?_, by decide⟩
  · intro buf
    unfold deserializeEntry
    cases h : deserializeEntryO buf with
    | none => simp
    | some t =>
      obtain ⟨f, k, v⟩ := t
      simp
  · intro buf h
    unfold deserializeEntry
    rw [deserializeEntryO_keyLen_overflow buf (by omega)]
  · intro buf h
    unfold deserializeEntry
    rw [deserializeEntryO_keyLen_overflow buf h]
  · intro buf hbig hfit h
    unfold deserializeEntry
    rw [deserializeEntryO_valLen_overflow buf hbig hfit h]

/-- Claim C2 witness. The amended theorem evaluated on a concrete short buffer. -/
theorem decode_malformed_amended_witness :
    deserializeEntry [0, 0, 0] = .panic :=
  decode_malformed_amended.2.1 [0, 0, 0] (by decide)

/-! ## Error vocabulary shared by the components -/

/-- The distinguishable Go error values the embedded components produce.
`notLeader` is `raft.ErrNotLeader`, `joiningSelf` is `store.ErrJoiningSelf`,
`noCommunication` is `service.ErrNoCommunication`, `enqueueTimeout` is the
consensus library's apply-deadline error, `entryNotFound` is the byte cache's
miss error, `noSubConnAvailable` is `balancer.ErrNoSubConnAvailable`. -/
inductive GoErr where
  | notLeader
  | joiningSelf
  | noCommunication
  | enqueueTimeout
  | consensusFailure
  | entryNotFound
  | cacheSetFailed
  | duplicateID
  | duplicateAddress
  | nonVoterConfig
  | noSubConnAvailable
  | setupFailed
  deriving DecidableEq, Repr

/-! ## HTTP server (http/http.go: Handler) -/

/-- Go `copy(dst, src)`: copies `min (len dst) (len src)` elements of `src`
over the front of `dst` and leaves the rest of `dst` alone. -/
def goCopy (dst src : List Nat) : List Nat :=
  src.take dst.length ++ dst.drop src.length

/-- A fasthttp request as the handler observes it: the raw request URI bytes
(starting with the `/`), whether it is a POST, and the raw body bytes. -/
structure HttpReq where
  uri : List Nat
  isPost : Bool
  body : List Nat
  deriving DecidableEq, Repr

/-- What one `Handler` invocation does: the HTTP status it sets, the response
body it writes, and the call it makes into the store (`setCall` carries the
exact `(key, value)` handed to `store.Set`; `getCall` the key handed to
`store.Get`). -/
structure HttpOut where
  status : Nat
  respBody : List Nat
  setCall : Option (List Nat × List Nat)
  getCall : Option (List Nat)
  deriving DecidableEq, Repr

/-- Model of `http.Server.Handler`.  `setRes key value` is the error `store.Set`
returns for that call, `getRes key` the `(value, error)` pair `store.Get`
returns.  Mirrors the source statement by statement: the key is
`ctx.RequestURI()[1:]`; on POST the value passed to `store.Set` is
`postData` after `var postData []byte; copy(postData, ctx.PostBody())`;
`200` on success and `500` on a store error. -/
def httpHandler (setRes : List Nat → List Nat → Option GoErr)
    (getRes : List Nat → List Nat × Option GoErr) (req : HttpReq) :
    Option HttpOut :=
  match goSliceFrom req.uri 1 with
  | none => none
  | some key =>
    if req.isPost then
      let postData := goCopy [] req.body
      match setRes key postData with
      | some _ => some ⟨500, [], some (key, postData), none⟩
      | none => some ⟨200, [], some (key, postData), none⟩
    else
      match getRes key with
      | (_, some _) => some ⟨500, [], none, some key⟩
      | (d, none) => some ⟨200, d, none, some key⟩

/-- Claim C3, code bug. `POST /testkey` with body `"testval"`: the handler
passes the EMPTY byte sequence to `store.Set`, not the 7-byte request body,
because `copy(postData, ctx.PostBody())` copies into the nil slice `postData`
and so copies nothing.  The body is nonempty, so the stored value is not the
request body, contradicting the claim (which the spec itself states as the
corrected behaviour of a known bug in this source). -/
theorem http_post_zero_length_write :
    httpHandler (fun _ _ => none) (fun _ => ([], some .entryNotFound))
        ⟨[47, 116, 101, 115, 116, 107, 101, 121], true,
          [116, 101, 115, 116, 118, 97, 108]⟩ =
      some ⟨200, [], some ([116, 101, 115, 116, 107, 101, 121], []), none⟩ ∧
    ([116, 101, 115, 116, 118, 97, 108] : List Nat) ≠ [] := by
  exact ⟨rfl, by decide⟩

/-! ## Registry (registry.go: eventHandler, handleJoin, handleLeave) -/

/-- A serf member as the registry sees it: its name and its tag map. -/
structure SerfMember where
  name : String
  tags : List (String × String)
  deriving DecidableEq, Repr

/-- Go map lookup `member.Tags["rpc_addr"]`: missing key yields `""`. -/
def tagValue (m : SerfMember) (k : String) : String :=
  (m.tags.lookup k).getD ""

/-- The serf event kinds the registry can receive. -/
inductive SerfEventType where
  | memberJoin
  | memberLeave
  | memberFailed
  | otherEvent
  deriving DecidableEq, Repr

/-- A serf member event: its kind and the members it reports. -/
structure SerfEvent where
  etype : SerfEventType
  members : List SerfMember
  deriving DecidableEq, Repr

/-- A call the registry makes into its `Handler` (the store). -/
inductive HandlerCall where
  | join (name addr : String)
  | leave (name : String)
  deriving DecidableEq, Repr

/-- One iteration of `Registry.eventHandler`'s switch: `EventMemberJoin`
runs `handleJoin` for every non-local member, `EventMemberLeave` runs
`handleLeave` for every non-local member, and every other event kind
(including `EventMemberFailed`) has no case and is dropped. -/
def handleEvent (localName : String) (e : SerfEvent) : List HandlerCall :=
  match e.etype with
  | .memberJoin =>
    (e.members.filter (fun m => !(m.name == localName))).map
      (fun m => .join m.name (tagValue m "rpc_addr"))
  | .memberLeave =>
    (e.members.filter (fun m => !(m.name == localName))).map
      (fun m => .leave m.name)
  | _ => []

/-- Model of `Registry.eventHandler`: the sequence of handler calls made while
consuming the event channel.  A failing `handler.Join`/`handler.Leave` is
logged and does not stop the loop, so the call sequence is independent of
the handler's results and later events are always processed. -/
def eventHandler (localName : String) : List SerfEvent → List HandlerCall
  | [] => []
  | e :: rest => handleEvent localName e ++ eventHandler localName rest

/-- The event-loop contract in the specification's words (§4.7): for each
`MemberJoin` that is not the local node call `handler.Join(name,
tags.rpc_addr)`, for each `MemberLeave` / `MemberFailed` call
`handler.Leave(name)`.  Written from the spec, for comparison with
`eventHandler`. -/
def registryCallsSpec (localName : String) : List SerfEvent → List HandlerCall
  | [] => []
  | e :: rest =>
    (match e.etype with
     | .memberJoin =>
       (e.members.filter (fun m => !(m.name == localName))).map
         (fun m => .join m.name (tagValue m "rpc_addr"))
     | .memberLeave =>
       (e.members.filter (fun m => !(m.name == localName))).map
         (fun m => .leave m.name)
     | .memberFailed =>
       (e.members.filter (fun m => !(m.name == localName))).map
         (fun m => .leave m.name)
     | .otherEvent => []) ++ registryCallsSpec localName rest

/-- Claim C4 counterexample. A `MemberFailed` event for a non-local member
produces no handler call at all — the event loop's switch has no
`EventMemberFailed` case — while the claim requires `handler.Leave("n1")`. -/
theorem registry_member_failed_counterexample :
    eventHandler "me" [⟨.memberFailed, [⟨"n1", [("rpc_addr", "a:1")]⟩]⟩] = [] ∧
    registryCallsSpec "me" [⟨.memberFailed, [⟨"n1", [("rpc_addr", "a:1")]⟩]⟩] =
      [.leave "n1"] ∧
    ("n1" : String) ≠ "me" := by
  refine ⟨rfl, ?_, by decide⟩
  simp [registryCallsSpec, tagValue]

/-- Claim C4, amended. The registry event loop calls `handler.Join(name,
tags.rpc_addr)` for every non-local member of a `MemberJoin` event and
`handler.Leave(name)` for every non-local member of a `MemberLeave` event;
`MemberFailed` events are ignored (no handler call); handler errors are
logged and the loop continues, so the calls are exactly the spec's calls for
the event stream with the `MemberFailed` events removed. -/
theorem registry_event_calls_amended (localName : String)
    (events : List SerfEvent) :
    eventHandler localName events =
      registryCallsSpec localName
        (events.filter (fun e => !(e.etype == SerfEventType.memberFailed))) := by
  induction events with
  | nil => rfl
  | cons e rest ih =>
    cases he : e.etype <;>
      simp [eventHandler, registryCallsSpec, handleEvent, List.filter_cons,
        he, ih]

/-! ## Client-side picker (server/picker.go: Pick, nextFollower) -/

/-- Go `strings.Contains pat`: some suffix of `s` starts with `pat`. -/
def strContains (s pat : String) : Bool :=
  (List.range (s.data.length + 1)).any
    (fun i => List.isPrefixOf pat.data (s.data.drop i))

/-- The picker's guarded state: the leader sub-connection, the follower
sub-connections (a `none` entry is a nil sub-connection) and the shared
`uint64` counter.  Sub-connections are identified by numbers. -/
structure PickerState where
  leader : Option Nat
  followers : List (Option Nat)
  curr : Nat
  deriving DecidableEq, Repr

/-- Model of `Picker.nextFollower`: `cur := atomic.AddUint64(&p.curr, 1)` (wrapping
`uint64` increment), `idx := cur % len(p.followers)`; returns the chosen
sub-connection and the new counter value. -/
def nextFollower (p : PickerState) : Option Nat × Nat :=
  let cur := (p.curr + 1) % 18446744073709551616
  let idx := cur % p.followers.length
  (p.followers.getD idx none, cur)

/-- The sub-connection `Pick` chooses and the counter value it leaves:
method containing `"Set"` or an empty follower list picks the leader;
otherwise a method containing `"Get"` picks `nextFollower`; otherwise no
sub-connection is chosen. -/
def pickChoice (p : PickerState) (method : String) : Option Nat × Nat :=
  if strContains method "Set" || p.followers.length == 0 then (p.leader, p.curr)
  else if strContains method "Get" then nextFollower p
  else (none, p.curr)

/-- Model of `Picker.Pick`: a nil chosen sub-connection fails with
`ErrNoSubConnAvailable`; otherwise the chosen sub-connection is returned.
The state records the (possibly bumped) counter. -/
def pick (p : PickerState) (method : String) :
    Except GoErr Nat × PickerState :=
  match pickChoice p method with
  | (none, c) => (.error .noSubConnAvailable, { p with curr := c })
  | (some n, c) => (.ok n, { p with curr := c })

/-- A nil sub-connection fails, a real one is returned. -/
def subConnRes (sc : Option Nat) : Except GoErr Nat :=
  match sc with
  | none => .error .noSubConnAvailable
  | some n => .ok n

/-- Claim C8. `Pick`: a method containing `"Set"`, or an empty followers list,
picks the leader and leaves the counter alone; otherwise a method containing
`"Get"` picks `followers[(curr+1 mod 2^64) mod len(followers)]` and stores
the incremented counter — so consecutive Get picks walk through the
followers cyclically; whenever the chosen sub-connection is nil the pick
fails with `NoSubConnAvailable`, in particular the unbuilt picker
`⟨none, [], k⟩` fails for every method. -/
theorem picker_pick (p : PickerState) (method : String) :
    (strContains method "Set" = true ∨ p.followers = [] →
      pick p method = (subConnRes p.leader, p)) ∧
    (strContains method "Set" = false → p.followers ≠ [] →
      strContains method "Get" = true →
      pick p method =
        (subConnRes (p.followers.getD
            ((p.curr + 1) % 18446744073709551616 % p.followers.length) none),
          { p with curr := (p.curr + 1) % 18446744073709551616 })) ∧
    (∀ k m2, pick ⟨none, [], k⟩ m2 =
      (.error .noSubConnAvailable, ⟨none, [], k⟩)) := by
  obtain ⟨l, f, c⟩ := p
  dsimp only
  refine ⟨?_, ?_, ?_⟩
  · intro h
    have hc : (strContains method "Set" || f.length == 0) = true := by
      rcases h with h | h
      · simp [h]
      · simp [h]
    cases l <;> simp [pick, pickChoice, hc, subConnRes]
  · intro hs hne hg
    have hlen : f.length ≠ 0 := fun hh => hne (List.length_eq_zero.mp hh)
    have hc : (strContains method "Set" || f.length == 0) = false := by
      simp [hs, hlen]
    simp only [pick, pickChoice, nextFollower, hc, Bool.false_eq_true,
      if_false, hg, if_true]
    cases hf : f.getD ((c + 1) % 18446744073709551616 % f.length) none <;>
      simp [subConnRes]
  · intro k m2
    simp [pick, pickChoice]

/-- Claim C8 witness. A built picker with two followers: the method `/Cache/Get`
picks follower index `(0+1) mod 2 = 1` and bumps the counter. -/
theorem picker_pick_witness :
    pick ⟨some 1, [some 5, some 6], 0⟩ "/Cache/Get" =
      (.ok 6, ⟨some 1, [some 5, some 6], 1⟩) := by
  have h := (picker_pick ⟨some 1, [some 5, some 6], 0⟩ "/Cache/Get").2.1
    (by decide) (by decide) (by decide)
  simpa using h

/-! ## Service supervisor (service/service.go: New) -/

/-- Model of `service.Config`, restricted to the fields `New`'s communication check
reads; the remaining fields only feed the individual setup steps. -/
structure ServiceConfig where
  enableHTTP : Bool
  enableGRPC : Bool
  deriving DecidableEq, Repr

/-- The effectful setup actions `service.New` runs, in source order. -/
inductive SetupStep where
  | muxStep
  | grpcMatchStep
  | httpMatchStep
  | storeStep
  | serverStep
  | httpStep
  | registryStep
  deriving DecidableEq, Repr

/-- Run the setup actions in order; `env` gives each action's outcome.  The
first failure aborts `New` with that error.  Returns the result together
with the actions actually executed. -/
def runSetup (env : SetupStep → Option GoErr) :
    List SetupStep → Except GoErr Unit × List SetupStep
  | [] => (.ok (), [])
  | s :: rest =>
    match env s with
    | some e => (.error e, [s])
    | none =>
      let r := runSetup env rest
      (r.1, s :: r.2)

/-- The setup actions `service.New` performs for a given configuration:
the mux, the gRPC matcher (when enabled), the HTTP matcher (when enabled),
then store, gRPC server, HTTP server and registry. -/
def setupSequence (conf : ServiceConfig) : List SetupStep :=
  [.muxStep] ++ (if conf.enableGRPC then [.grpcMatchStep] else [])
    ++ (if conf.enableHTTP then [.httpMatchStep] else [])
    ++ [.storeStep, .serverStep, .httpStep, .registryStep]

/-- Model of `service.New`: refuses a configuration with neither client interface
enabled with `ErrNoCommunication` before running any setup action;
otherwise runs the setup sequence. -/
def serviceNew (env : SetupStep → Option GoErr) (conf : ServiceConfig) :
    Except GoErr Unit × List SetupStep :=
  if !conf.enableGRPC && !conf.enableHTTP then (.error .noCommunication, [])
  else runSetup env (setupSequence conf)

/-- Claim C9. With both `EnableHTTP = false` and `EnableGRPC = false`,
`service.New` returns `ErrNoCommunication` and executes no setup action,
whatever the environment would have done. -/
theorem service_new_no_communication (env : SetupStep → Option GoErr)
    (conf : ServiceConfig)
    (hh : conf.enableHTTP = false) (hg : conf.enableGRPC = false) :
    serviceNew env conf = (.error .noCommunication, []) := by
  unfold serviceNew
  rw [hh, hg]
  rfl

/-- Claim C9 witness. The refusal on the concrete all-disabled configuration. -/
theorem service_new_no_communication_witness :
    serviceNew (fun _ => none) ⟨false, false⟩ =
      (.error .noCommunication, []) :=
  service_new_no_communication (fun _ => none) ⟨false, false⟩ rfl rfl

/-! ## Replicated store (store/store.go: Apply, Set, Get, createApplyReq) -/

/-- The byte cache's contents: an association list from key bytes to value
bytes; a write prepends and a read finds the most recent binding, which is
`bigcache`'s observable overwrite semantics. -/
abbrev CacheState := List (List Nat × List Nat)

/-- Model of `bigcache.Get` as the pair Go returns: `(value, nil)` on a hit, or the
nil slice and `ErrEntryNotFound` on a miss. -/
def cacheGetPair (c : CacheState) (k : List Nat) : List Nat × Option GoErr :=
  match c.lookup k with
  | some v => (v, none)
  | none => ([], some .entryNotFound)

/-- The `interface{}` value `Store.Apply` returns: an `applyResult` (its
`res` field, where `none` is the untyped nil interface, and its `err`
field) or the untyped `nil` the default switch branch returns. -/
inductive ApplyRet where
  | result (res : Option (List Nat)) (err : Option GoErr)
  | nilRet
  deriving DecidableEq, Repr

/-- Model of `Store.Apply`: decode the committed entry (faulting exactly like the
decoder on a malformed one: `none`); `SetOperation` writes the cache
(`failSet` says whether `bigcache.Set` rejects this write, in which case
the cache is unchanged and the error lands in `applyResult.err`),
`GetOperation` reads it, any other tag returns `nil`.  Also yields the
cache contents after the call. -/
def storeApply (failSet : List Nat → List Nat → Bool) (c : CacheState)
    (data : List Nat) : Option (ApplyRet × CacheState) :=
  match deserializeEntryO data with
  | none => none
  | some (flag, key, val) =>
    if flag == SetOperation then
      if failSet key val then some (.result none (some .cacheSetFailed), c)
      else some (.result none none, (key, val) :: c)
    else if flag == GetOperation then
      some (.result (some (cacheGetPair c key).1) (cacheGetPair c key).2, c)
    else some (.nilRet, c)

/-- One submission to `raft.Apply`: the serialized entry and the deadline
in nanoseconds. -/
structure ApplyCall where
  data : List Nat
  timeoutNs : Nat
  deriving DecidableEq, Repr

/-- What the consensus library does with a submitted entry: fail the future
(`f.Error() ≠ nil` — an opaque consensus error, in particular
`enqueueTimeout` when the deadline passes), or commit it, in which case the
future's response is this leader's `Apply` run against the cache state at
apply time. -/
inductive RaftOutcome where
  | failure (e : GoErr)
  | committed (cacheAtApply : CacheState)

/-- Model of `Store.createApplyReq`: serialize, submit with the 10-second deadline
(`10 * time.Second` = `10^10` ns), propagate `f.Error()`; the response is
never an `error` value (`applyResult` is a plain struct and the nil
interface is not an error either), so it is returned as-is.  Outer `none`
models a fault inside `Apply`.  The `ApplyCall` component records the
submission that was made. -/
def createApplyReq (failSet : List Nat → List Nat → Bool)
    (outcome : RaftOutcome) (ty : Nat) (key value : List Nat) :
    Option (Except GoErr ApplyRet) × ApplyCall :=
  let buffer := serializeEntry ty key value
  let call : ApplyCall := ⟨buffer, 10000000000⟩
  match outcome with
  | .failure e => (some (.error e), call)
  | .committed c =>
    match storeApply failSet c buffer with
    | none => (none, call)
    | some (ret, _) => (some (.ok ret), call)

/-- Model of `Store.Set`: non-leaders fail with `raft.ErrNotLeader` before touching
raft; the leader submits a SET entry via `createApplyReq` and returns the
`applyResult`'s error field.  First component: `some err?` is the error Go
returns (`none` inside = success), outer `none` a panic (`res.(applyResult)`
on the nil interface).  Second component: the raft submission made, if
any. -/
def storeSet (failSet : List Nat → List Nat → Bool) (isLeader : Bool)
    (outcome : RaftOutcome) (key value : List Nat) :
    Option (Option GoErr) × Option ApplyCall :=
  if !isLeader then (some (some .notLeader), none)
  else
    match createApplyReq failSet outcome SetOperation key value with
    | (none, call) => (none, some call)
    | (some (.error e), call) => (some (some e), some call)
    | (some (.ok ret), call) =>
      match ret with
      | .result _ err => (some err, some call)
      | .nilRet => (none, some call)

/-- Model of `Store.Get`: with `StrongConsistency` off, read the local byte cache
directly and never submit to raft; with it on, non-leaders fail with
`NotLeader` and the leader submits a GET entry and returns
`r.res.([]byte), r.err` from the response (the type assertion panics on the
nil interface).  The result pairs the returned slice with the returned
error. -/
def storeGet (failSet : List Nat → List Nat → Bool)
    (strongConsistency isLeader : Bool) (localCache : CacheState)
    (outcome : RaftOutcome) (key : List Nat) :
    Option (List Nat × Option GoErr) × Option ApplyCall :=
  if strongConsistency then
    if !isLeader then (some ([], some .notLeader), none)
    else
      match createApplyReq failSet outcome GetOperation key [] with
      | (none, call) => (none, some call)
      | (some (.error e), call) => (some ([], some e), some call)
      | (some (.ok ret), call) =>
        match ret with
        | .result (some bs) err => (some (bs, err), some call)
        | .result none _ => (none, some call)
        | .nilRet => (none, some call)
  else (some (cacheGetPair localCache key), none)

/-- Claim C5. `Set(key,value)` on a non-leader returns `NotLeader` and submits
nothing (state unchanged); on the leader it submits exactly one SET entry
with the 10-second deadline and returns the consensus error (`Timeout`
included) when the future fails, or the apply-time cache error (`none` =
nil on success) when the entry commits. -/
theorem store_set_behaviour (failSet : List Nat → List Nat → Bool)
    (outcome : RaftOutcome) (key value : List Nat)
    (hk : key.length ≤ 65536) (hv : value.length ≤ 65536) :
    (storeSet failSet false outcome key value =
      (some (some .notLeader), none)) ∧
    (∀ e, outcome = .failure e →
      storeSet failSet true outcome key value =
        (some (some e),
          some ⟨serializeEntry SetOperation key value, 10000000000⟩)) ∧
    (∀ c, outcome = .committed c →
      storeSet failSet true outcome key value =
        (some (if failSet key value then some .cacheSetFailed else none),
          some ⟨serializeEntry SetOperation key value, 10000000000⟩)) := by
  refine ⟨rfl, ?_, ?_⟩
  · intro e he
    subst he
    rfl
  · intro c hc
    subst hc
    have hdec : deserializeEntryO (serializeEntry SetOperation key value) =
        some (0, key, value) := by
      rw [deserializeEntryO_serializeEntry _ _ _ (by omega)]
      rfl
    simp only [storeSet, createApplyReq, storeApply, hdec]
    cases hfs : failSet key value <;> simp [SetOperation, hfs]

/-- Claim C5 witness. A committed SET on the leader with a healthy cache:
success (`nil` error) and the recorded 10 s submission. -/
theorem store_set_behaviour_witness :
    storeSet (fun _ _ => false) true (.committed []) [1] [2] =
      (some none, some ⟨serializeEntry SetOperation [1] [2], 10000000000⟩) := by
  have h := (store_set_behaviour (fun _ _ => false) (.committed []) [1] [2]
    (by decide) (by decide)).2.2 [] rfl
  simpa using h

/-- Claim C6. `Get(key)` with strong consistency off reads the local byte
cache and submits nothing to consensus; with it on, a non-leader returns
`NotLeader`, and the leader submits a GET entry and returns exactly the
value/err pair its `Apply` produced for that entry at apply time (or the
consensus failure). -/
theorem store_get_behaviour (failSet : List Nat → List Nat → Bool)
    (isLeader : Bool) (localCache : CacheState) (outcome : RaftOutcome)
    (key : List Nat) (hk : key.length ≤ 65536) :
    (storeGet failSet false isLeader localCache outcome key =
      (some (cacheGetPair localCache key), none)) ∧
    (storeGet failSet true false localCache outcome key =
      (some ([], some .notLeader), none)) ∧
    (∀ e, outcome = .failure e →
      storeGet failSet true true localCache outcome key =
        (some ([], some e),
          some ⟨serializeEntry GetOperation key [], 10000000000⟩)) ∧
    (∀ c, outcome = .committed c →
      storeGet failSet true true localCache outcome key =
        (some (cacheGetPair c key),
          some ⟨serializeEntry GetOperation key [], 10000000000⟩)) := by
  refine ⟨rfl, rfl, ?_, ?_⟩
  · intro e he
    subst he
    rfl
  · intro c hc
    subst hc
    have hdec : deserializeEntryO (serializeEntry GetOperation key []) =
        some (1, key, []) := by
      rw [deserializeEntryO_serializeEntry _ _ _ (by simp; omega)]
      rfl
    simp only [storeGet, createApplyReq, storeApply, hdec]
    simp [GetOperation, SetOperation]

/-- Claim C6 witness. A weak (default) read on a follower comes straight from
the local cache with no consensus submission. -/
theorem store_get_behaviour_witness :
    storeGet (fun _ _ => false) false false [([7], [9])] (.committed []) [7] =
      (some ([9], none), none) := by
  have h := (store_get_behaviour (fun _ _ => false) false [([7], [9])]
    (.committed []) [7] (by decide)).1
  simpa [cacheGetPair] using h

/-- Claim C10. `Apply` of a committed entry whose tag is not `SetOperation`
leaves the cache contents exactly as they were — in particular a GET entry
only reads: its `applyResult` is the cache lookup and the cache after the
call is the cache before.  Only SET entries mutate the cache. -/
theorem apply_get_frame (failSet : List Nat → List Nat → Bool)
    (c : CacheState) (data : List Nat) :
    (∀ flag key val, deserializeEntryO data = some (flag, key, val) →
      flag ≠ SetOperation →
      (storeApply failSet c data).map Prod.snd = some c) ∧
    (∀ key val, deserializeEntryO data = some (GetOperation, key, val) →
      storeApply failSet c data =
        some (.result (some (cacheGetPair c key).1) (cacheGetPair c key).2,
          c)) := by
  constructor
  · intro flag key val h hne
    have hbeq : (flag == SetOperation) = false := by
      simp [hne]
    simp only [storeApply, h, hbeq]
    by_cases hg : flag == GetOperation <;> simp [hg]
  · intro key val h
    simp only [storeApply, h]
    simp [GetOperation, SetOperation]

/-- Claim C10 witness. A GET entry applied against a one-entry cache leaves
the cache untouched. -/
theorem apply_get_frame_witness :
    (storeApply (fun _ _ => false) [([7], [9])]
        (serializeEntry GetOperation [7] [])).map Prod.snd =
      some [([7], [9])] :=
  (apply_get_frame (fun _ _ => false) [([7], [9])]
      (serializeEntry GetOperation [7] [])).1 GetOperation [7] []
    (by decide) (by decide)

/-! ## Cluster membership (store/store.go: joinHelper, Join, remove)

The configuration-change semantics of the external consensus library
(hashicorp/raft `RemoveServer`, `AddVoter`, `AddNonvoter` and its
`checkConfiguration` validation) are modelled explicitly: a removal filters
the server out, an addition updates the entry with the same id or appends a
new one, and the resulting configuration is rejected when it has a
duplicate id, a duplicate address, or no voter left. -/

/-- A server in the consensus configuration. -/
structure RaftServer where
  id : String
  addr : String
  voter : Bool
  deriving DecidableEq, Repr

/-- A configuration-change request issued to the consensus library. -/
inductive RaftOp where
  | removeOp (id : String)
  | addVoterOp (id addr : String)
  | addNonvoterOp (id addr : String)
  deriving DecidableEq, Repr

/-- Whether a list of strings has a repeated element. -/
def hasDup : List String → Bool
  | [] => false
  | x :: xs => xs.contains x || hasDup xs

/-- hashicorp/raft `checkConfiguration`: no duplicate ids, no duplicate
addresses, at least one voter. -/
def checkConfig (cfg : List RaftServer) : Option GoErr :=
  if hasDup (cfg.map (fun s => s.id)) then some .duplicateID
  else if hasDup (cfg.map (fun s => s.addr)) then some .duplicateAddress
  else if cfg.any (fun s => s.voter) then none
  else some .nonVoterConfig

/-- hashicorp/raft `RemoveServer`: drop the entry with this id (a no-op when
absent) and validate the result; on a validation error the configuration is
unchanged. -/
def removeServerCfg (cfg : List RaftServer) (id : String) :
    Except GoErr (List RaftServer) :=
  let next := cfg.filter (fun s => !(s.id == id))
  match checkConfig next with
  | some e => .error e
  | none => .ok next

/-- hashicorp/raft `AddVoter` / `AddNonvoter`: replace the entry with this id
or append a fresh one, then validate the result. -/
def addServerCfg (cfg : List RaftServer) (id addr : String) (voter : Bool) :
    Except GoErr (List RaftServer) :=
  let newSrv : RaftServer := ⟨id, addr, voter⟩
  let next := if cfg.any (fun s => s.id == id)
    then cfg.map (fun s => if s.id == id then newSrv else s)
    else cfg ++ [newSrv]
  match checkConfig next with
  | some e => .error e
  | none => .ok next

/-- The `for _, srv := range f.Configuration().Servers` loop of
`Store.joinHelper`, iterating over the snapshot while the live configuration
evolves.  On a server matching the joining id or address: an identical
`(id, addr)` pair returns nil early; otherwise `s.remove(id)` — removal of
the JOINING id, exactly as the source does — is issued, its error returned
early.  First component: `some r` is an early `return r` (`none` inside is
`return nil`), `none` means the loop fell through; then the removal ops
issued and the configuration reached. -/
def joinScan (id addr : String) :
    List RaftServer → List RaftServer →
      Option (Option GoErr) × List RaftOp × List RaftServer
  | [], cfg => (none, [], cfg)
  | srv :: rest, cfg =>
    if srv.id == id || srv.addr == addr then
      if srv.id == id && srv.addr == addr then (some none, [], cfg)
      else
        match removeServerCfg cfg id with
        | .error e => (some (some e), [.removeOp id], cfg)
        | .ok cfg2 =>
          let r := joinScan id addr rest cfg2
          (r.1, .removeOp id :: r.2.1, r.2.2)
    else joinScan id addr rest cfg

/-- Model of `Store.joinHelper`: leader-only (`NotLeader` first), self-join refused
(`JoiningSelf`), then the snapshot scan, then `AddVoter`/`AddNonvoter` of
`(id, addr)`.  Returns the Go error (`none` = nil), the configuration-change
ops issued and the final configuration. -/
def joinHelper (isLeader : Bool) (localID : String) (cfg : List RaftServer)
    (id addr : String) (voter : Bool) :
    Option GoErr × List RaftOp × List RaftServer :=
  if !isLeader then (some .notLeader, [], cfg)
  else if id == localID then (some .joiningSelf, [], cfg)
  else
    match joinScan id addr cfg cfg with
    | (some r, ops, cfg2) => (r, ops, cfg2)
    | (none, ops, cfg2) =>
      let op := if voter then RaftOp.addVoterOp id addr
        else RaftOp.addNonvoterOp id addr
      match addServerCfg cfg2 id addr voter with
      | .error e => (some e, ops ++ [op], cfg2)
      | .ok cfg3 => (none, ops ++ [op], cfg3)

/-- Model of `Store.Join`: `joinHelper` with the voter flag set. -/
def storeJoin (isLeader : Bool) (localID : String) (cfg : List RaftServer)
    (id addr : String) : Option GoErr × List RaftOp × List RaftServer :=
  joinHelper isLeader localID cfg id addr true

/-! ### joinHelper lemmas -/

lemma hasDup_append_of_mem (l : List String) (x : String) (h : x ∈ l) :
    hasDup (l ++ [x]) = true := by
  induction l with
  | nil => cases h
  | cons y ys ih =>
    rcases List.mem_cons.mp h with h1 | h1
    · subst h1
      have hc : (ys ++ [x]).contains x = true := by simp
      simp [hasDup, hc]
    · simp [hasDup, ih h1]

lemma joinScan_no_match (id addr : String) (snapshot cfg : List RaftServer)
    (h : ∀ s ∈ snapshot, s.id ≠ id ∧ s.addr ≠ addr) :
    joinScan id addr snapshot cfg = (none, [], cfg) := by
  induction snapshot with
  | nil => rfl
  | cons srv rest ih =>
    have h1 := h srv (List.mem_cons_self _ _)
    have hcond : (srv.id == id || srv.addr == addr) = false := by
      simp [h1.1, h1.2]
    simp only [joinScan, hcond, Bool.false_eq_true, if_false]
    exact ih (fun s hs => h s (List.mem_cons_of_mem _ hs))

lemma joinScan_identical (id addr : String) (pre post : List RaftServer)
    (v : Bool) (cfg : List RaftServer)
    (hpre : ∀ s ∈ pre, s.id ≠ id ∧ s.addr ≠ addr) :
    joinScan id addr (pre ++ ⟨id, addr, v⟩ :: post) cfg =
      (some none, [], cfg) := by
  induction pre with
  | nil => simp [joinScan]
  | cons srv rest ih =>
    have h1 := hpre srv (List.mem_cons_self _ _)
    have hcond : (srv.id == id || srv.addr == addr) = false := by
      simp [h1.1, h1.2]
    simp only [List.cons_append, joinScan, hcond, Bool.false_eq_true, if_false]
    exact ih (fun s hs => hpre s (List.mem_cons_of_mem _ hs))

lemma joinScan_single_match (id addr : String) (pre post : List RaftServer)
    (srv : RaftServer) (cfg cfg2 : List RaftServer)
    (hpre : ∀ s ∈ pre, s.id ≠ id ∧ s.addr ≠ addr)
    (hpost : ∀ s ∈ post, s.id ≠ id ∧ s.addr ≠ addr)
    (hmatch : srv.id = id ∨ srv.addr = addr)
    (hnotboth : ¬(srv.id = id ∧ srv.addr = addr))
    (hrem : removeServerCfg cfg id = .ok cfg2) :
    joinScan id addr (pre ++ srv :: post) cfg =
      (none, [.removeOp id], cfg2) := by
  induction pre with
  | nil =>
    have hcond : (srv.id == id || srv.addr == addr) = true := by
      rcases hmatch with h | h <;> simp [h]
    have hcond2 : (srv.id == id && srv.addr == addr) = false := by
      by_cases h1 : srv.id = id
      · have h2 : srv.addr ≠ addr := fun h2 => hnotboth ⟨h1, h2⟩
        simp [h1, h2]
      · simp [h1]
    simp only [List.nil_append, joinScan, hcond, if_true, hcond2,
      Bool.false_eq_true, if_false, hrem]
    rw [joinScan_no_match id addr post cfg2 hpost]
  | cons s0 rest ih =>
    have h1 := hpre s0 (List.mem_cons_self _ _)
    have hcond : (s0.id == id || s0.addr == addr) = false := by
      simp [h1.1, h1.2]
    simp only [List.cons_append, joinScan, hcond, Bool.false_eq_true, if_false]
    exact ih (fun s hs => hpre s (List.mem_cons_of_mem _ hs))

/-- Claim C7 counterexample. Leader `"n0"`, configuration `[{id:"n1",
addr:"A"}]`, `Join("n2", "A")`: the address collides with the existing
server `"n1"`, but the code issues `remove("n2")` — the JOINING id, which
removes nothing — and the subsequent `AddVoter` fails on the duplicate
address; the old entry `{"n1","A"}` is still in the final configuration and
nothing was added, refuting "the old entry is removed before the new one is
added". -/
theorem join_addr_collision_counterexample :
    storeJoin true "n0" [⟨"n1", "A", true⟩] "n2" "A" =
      (some .duplicateAddress, [.removeOp "n2", .addVoterOp "n2" "A"],
        [⟨"n1", "A", true⟩]) := by
  decide

lemma hasDup_append_of_not_mem (l : List String) (x : String)
    (hl : hasDup l = false) (hx : ¬ x ∈ l) : hasDup (l ++ [x]) = false := by
  induction l with
  | nil => rfl
  | cons y ys ih =>
    simp only [hasDup, Bool.or_eq_false_iff] at hl
    have hxys : ¬ x ∈ ys := fun hh => hx (List.mem_cons_of_mem _ hh)
    have hyx : y ≠ x := fun hh => hx (by simp [hh])
    have hcy : ¬ y ∈ ys := by simpa using hl.1
    simp [hasDup, hcy, hyx, ih hl.2 hxys]

lemma checkConfig_none (cfg : List RaftServer) (h : checkConfig cfg = none) :
    hasDup (cfg.map fun s => s.id) = false ∧
    hasDup (cfg.map fun s => s.addr) = false := by
  unfold checkConfig at h
  by_cases h1 : hasDup (cfg.map fun s => s.id) = true
  · rw [if_pos h1] at h
    simp at h
  · rw [if_neg h1] at h
    by_cases h2 : hasDup (cfg.map fun s => s.addr) = true
    · rw [if_pos h2] at h
      simp at h
    · constructor
      · simpa using h1
      · simpa using h2

lemma filter_keep_of_fresh (l : List RaftServer) (id : String)
    (h : ∀ s ∈ l, s.id ≠ id) :
    (l.filter fun s => !(s.id == id)) = l := by
  apply List.filter_eq_self.mpr
  intro s hs
  simp [h s hs]

/-- Claim C7, amended. `Join(id, addr)`: a non-leader returns `NotLeader`
with nothing issued; on the leader a self-join returns `JoiningSelf`; an
identical `(id, addr)` entry already present returns nil with the
configuration unchanged; with no collision the entry is appended (when the
resulting configuration validates).  On a collision the removal the code
issues always targets the JOINING id: when the id collides with a different
existing server (different address), that old entry is removed before the
new one is added; but when only the address collides, the removal removes
nothing and the subsequent `AddVoter` fails on the duplicate address,
leaving the old entry in place — the old entry is NOT removed. -/
theorem join_collision_amended (localID id addr : String)
    (cfg : List RaftServer) :
    (∀ voter, joinHelper false localID cfg id addr voter =
      (some .notLeader, [], cfg)) ∧
    (∀ voter, id = localID → joinHelper true localID cfg id addr voter =
      (some .joiningSelf, [], cfg)) ∧
    (id ≠ localID → ∀ pre post v, cfg = pre ++ ⟨id, addr, v⟩ :: post →
      (∀ s ∈ pre, s.id ≠ id ∧ s.addr ≠ addr) →
      storeJoin true localID cfg id addr = (none, [], cfg)) ∧
    (id ≠ localID → (∀ s ∈ cfg, s.id ≠ id ∧ s.addr ≠ addr) →
      checkConfig (cfg ++ [⟨id, addr, true⟩]) = none →
      storeJoin true localID cfg id addr =
        (none, [.addVoterOp id addr], cfg ++ [⟨id, addr, true⟩])) ∧
    (id ≠ localID → ∀ pre post a0 v0, a0 ≠ addr →
      cfg = pre ++ ⟨id, a0, v0⟩ :: post →
      (∀ s ∈ pre ++ post, s.id ≠ id ∧ s.addr ≠ addr) →
      checkConfig (pre ++ post) = none →
      checkConfig ((pre ++ post) ++ [⟨id, addr, true⟩]) = none →
      storeJoin true localID cfg id addr =
        (none, [.removeOp id, .addVoterOp id addr],
          (pre ++ post) ++ [⟨id, addr, true⟩])) ∧
    (id ≠ localID → ∀ pre post t, t.id ≠ id → t.addr = addr →
      cfg = pre ++ t :: post →
      (∀ s ∈ pre ++ post, s.id ≠ id ∧ s.addr ≠ addr) →
      checkConfig cfg = none →
      storeJoin true localID cfg id addr =
        (some .duplicateAddress,
          [.removeOp id, .addVoterOp id addr], cfg)) := by
  refine ⟨fun voter => rfl, ?_, ?_, ?_, ?_, ?_⟩
  · intro voter h
    subst h
    simp [joinHelper]
  · intro hne pre post v hcfg hpre
    have hid : (id == localID) = false := by simp [hne]
    subst hcfg
    simp only [storeJoin, joinHelper, Bool.not_true, Bool.false_eq_true,
      if_false, hid, joinScan_identical id addr pre post v _ hpre]
  · intro hne hfresh hcheck
    have hid : (id == localID) = false := by simp [hne]
    have hscan := joinScan_no_match id addr cfg cfg hfresh
    have hany : (cfg.any fun s => s.id == id) = false := by
      simp only [List.any_eq_false]
      intro s hs
      simp [(hfresh s hs).1]
    have hadd : addServerCfg cfg id addr true =
        .ok (cfg ++ [⟨id, addr, true⟩]) := by
      unfold addServerCfg
      simp only [hany, Bool.false_eq_true, if_false, hcheck]
    simp only [storeJoin, joinHelper, Bool.not_true, Bool.false_eq_true,
      if_false, hid, hscan, hadd]
    simp
  · intro hne pre post a0 v0 ha0 hcfg hfree hchk1 hchk2
    have hid : (id == localID) = false := by simp [hne]
    subst hcfg
    have hpre2 : ∀ s ∈ pre, s.id ≠ id ∧ s.addr ≠ addr :=
      fun s hs => hfree s (List.mem_append_left _ hs)
    have hpost2 : ∀ s ∈ post, s.id ≠ id ∧ s.addr ≠ addr :=
      fun s hs => hfree s (List.mem_append_right _ hs)
    have hfil : ((pre ++ (⟨id, a0, v0⟩ : RaftServer) :: post).filter
        fun s => !(s.id == id)) = pre ++ post := by
      rw [List.filter_append, List.filter_cons]
      have hp := filter_keep_of_fresh pre id (fun s hs => (hpre2 s hs).1)
      have hq := filter_keep_of_fresh post id (fun s hs => (hpost2 s hs).1)
      simp [hp, hq]
    have hrem : removeServerCfg (pre ++ ⟨id, a0, v0⟩ :: post) id =
        .ok (pre ++ post) := by
      unfold removeServerCfg
      simp only [hfil, hchk1]
    have hscan := joinScan_single_match id addr pre post ⟨id, a0, v0⟩
      (pre ++ ⟨id, a0, v0⟩ :: post) (pre ++ post) hpre2 hpost2 (Or.inl rfl)
      (by rintro ⟨-, h2⟩; exact ha0 h2) hrem
    have hany : ((pre ++ post).any fun s => s.id == id) = false := by
      simp only [List.any_eq_false]
      intro s hs
      simp [(hfree s hs).1]
    have hadd : addServerCfg (pre ++ post) id addr true =
        .ok ((pre ++ post) ++ [⟨id, addr, true⟩]) := by
      unfold addServerCfg
      simp only [hany, Bool.false_eq_true, if_false, hchk2]
    simp only [storeJoin, joinHelper, Bool.not_true, Bool.false_eq_true,
      if_false, hid, hscan, hadd]
    simp
  · intro hne pre post t htid htaddr hcfg hfree hchk
    have hid : (id == localID) = false := by simp [hne]
    subst hcfg
    have hnotid : ∀ s ∈ pre ++ t :: post, s.id ≠ id := by
      intro s hs
      rcases List.mem_append.mp hs with h | h
      · exact (hfree s (List.mem_append_left _ h)).1
      · rcases List.mem_cons.mp h with h | h
        · subst h; exact htid
        · exact (hfree s (List.mem_append_right _ h)).1
    have hfil : ((pre ++ t :: post).filter fun s => !(s.id == id)) =
        pre ++ t :: post :=
      filter_keep_of_fresh _ id hnotid
    have hrem : removeServerCfg (pre ++ t :: post) id =
        .ok (pre ++ t :: post) := by
      unfold removeServerCfg
      simp only [hfil, hchk]
    have hpre2 : ∀ s ∈ pre, s.id ≠ id ∧ s.addr ≠ addr :=
      fun s hs => hfree s (List.mem_append_left _ hs)
    have hpost2 : ∀ s ∈ post, s.id ≠ id ∧ s.addr ≠ addr :=
      fun s hs => hfree s (List.mem_append_right _ hs)
    have hscan := joinScan_single_match id addr pre post t
      (pre ++ t :: post) (pre ++ t :: post) hpre2 hpost2 (Or.inr htaddr)
      (by rintro ⟨h1, -⟩; exact htid h1) hrem
    have hids0 := (checkConfig_none _ hchk).1
    have hidfresh : ¬ id ∈ ((pre ++ t :: post).map fun s => s.id) := by
      intro hm
      rcases List.mem_map.mp hm with ⟨s, hs, hss⟩
      exact hnotid s hs hss
    have haddrmem : addr ∈ ((pre ++ t :: post).map fun s => s.addr) :=
      List.mem_map.mpr ⟨t, by simp, htaddr⟩
    have hany : ((pre ++ t :: post).any fun s => s.id == id) = false := by
      simp only [List.any_eq_false]
      intro s hs
      simp [hnotid s hs]
    have hadd : addServerCfg (pre ++ t :: post) id addr true =
        .error .duplicateAddress := by
      unfold addServerCfg
      simp only [hany, Bool.false_eq_true, if_false]
      have hmapid : (((pre ++ t :: post) ++
            [(⟨id, addr, true⟩ : RaftServer)]).map fun s => s.id) =
          ((pre ++ t :: post).map fun s => s.id) ++ [id] := by
        rw [List.map_append]
        rfl
      have hmapaddr : (((pre ++ t :: post) ++
            [(⟨id, addr, true⟩ : RaftServer)]).map fun s => s.addr) =
          ((pre ++ t :: post).map fun s => s.addr) ++ [addr] := by
        rw [List.map_append]
        rfl
      unfold checkConfig
      rw [hmapid, hasDup_append_of_not_mem _ _ hids0 hidfresh,
        hmapaddr, hasDup_append_of_mem _ _ haddrmem]
      simp
    simp only [storeJoin, joinHelper, Bool.not_true, Bool.false_eq_true,
      if_false, hid, hscan, hadd]
    simp

/-- Claim C7 witness. An id collision with a changed address on the leader:
the old `{id1, C}` entry is removed and `{id1, A}` added. -/
theorem join_collision_amended_witness :
    storeJoin true "n0" [⟨"n3", "B", true⟩, ⟨"id1", "C", true⟩] "id1" "A" =
      (none, [.removeOp "id1", .addVoterOp "id1" "A"],
        ([⟨"n3", "B", true⟩] ++ []) ++ [⟨"id1", "A", true⟩]) := by
  have h := (join_collision_amended "n0" "id1" "A"
      [⟨"n3", "B", true⟩, ⟨"id1", "C", true⟩]).2.2.2.2.1
    (by decide) [⟨"n3", "B", true⟩] [] "C" true (by decide) rfl
    (by decide) (by decide) (by decide)
  simpa using h
